import Mathlib

/-!
Shallow embedding of the EmbyContentWatchdog engine
(src/emby_content_watchdog.py): the rule compiler, the rate limiter,
the per-line matching loop of the tailer, and the action dispatcher.

Modelling conventions:
- timestamps returned by the clock are modelled as integers (the Python
  code compares float seconds with the same order-theoretic tests);
- a compiled regular expression is modelled by its induced matcher
  predicate on strings (the code only uses compiled patterns through
  their search method, as a Boolean test);
- the two fixed extraction patterns and the HTTP transport are
  modelled as oracle functions collected in a context record, so that
  the control flow of the engine is embedded exactly while the regex
  engine and the network stay abstract;
- the process-wide dictionary recent_refresh is modelled as an
  association list with Python dict semantics (insertion overwrites in
  place, keys are unique).
-/

namespace EmbyWatchdog

/-- Log level of the service log, as passed through write_log. -/
def lvlInfo : String := "INFO"

def lvlWarn : String := "WARN"

def lvlError : String := "ERROR"

/-- One record written by write_log: the event name and its level
(write_log defaults the level to INFO when no explicit level is given). -/
structure LogEvent where
  event : String
  level : String
deriving DecidableEq, Repr

def evRulesNotFound : String := "RulesNotFound"

def evRulesLoadError : String := "RulesLoadError"

def evRuleCompileError : String := "RuleCompileError"

def evRulesLoaded : String := "RulesLoaded"

def evApiTransportError : String := "ApiTransportError"

def evUnknownAction : String := "UnknownAction"

def evRuleMatched : String := "RuleMatched"

def evSkipNoItemId : String := "ActionSkippedNoItemId"

def evSkipTTL : String := "ActionSkippedTTL"

def evActionCalled : String := "ActionCalled"

def evWatchTimeout : String := "WatchTimeout"

def actRefresh : String := "refresh_metadata"

/-- A compiled rule, as built by load_rules: the compiled pattern is
represented by its matcher predicate (pattern s is true iff
pattern.search(line) finds a match in the source). -/
structure CompiledRule where
  name : String
  pattern : String → Bool
  action : String
  rate_limit_seconds : Int
  level : String

/-- Key of the rate-limit cache recent_refresh: (item_id, rule name). -/
abbrev Key := String × String

/-- The rate-limit cache recent_refresh, a Python dict keyed by
(item_id, rule_name) with a last-fired timestamp as value. -/
abbrev Cache := List (Key × Int)

/-- Dict lookup: recent_refresh.get(key). -/
def lookup : Cache → Key → Option Int
  | [], _ => none
  | e :: rest, k => if e.1 = k then some e.2 else lookup rest k

/-- Dict assignment recent_refresh[key] = v: overwrite in place if the
key is present, append otherwise. -/
def insert : Cache → Key → Int → Cache
  | [], k, v => [(k, v)]
  | e :: rest, k, v => if e.1 = k then (k, v) :: rest else e :: insert rest k v

/-- can_fire (line 143): fire allowed iff no entry recorded for the key
or the elapsed time since the last firing reaches rate_limit_seconds. -/
def can_fire (item_id : String) (rule : CompiledRule) (now : Int) (cache : Cache) : Bool :=
  match lookup cache (item_id, rule.name) with
  | none => true
  | some last_ts => decide (rule.rate_limit_seconds ≤ now - last_ts)

/-- mark_fired (line 147): record the firing timestamp for the key. -/
def mark_fired (item_id : String) (rule : CompiledRule) (now : Int) (cache : Cache) : Cache :=
  insert cache (item_id, rule.name) now

/-- The window used by cleanup_cache for an entry: rate_limit_seconds
of the first active rule bearing the entry rule name, defaulting to 300
when no active rule has that name (the next(...) expression, line 137). -/
def ttlFor (rules : List CompiledRule) (rule_name : String) : Int :=
  match rules.find? (fun r => r.name == rule_name) with
  | some r => r.rate_limit_seconds
  | none => 300

/-- cleanup_cache (line 133): collect the keys whose elapsed time
reaches their window, then pop each collected key from the dict. -/
def cleanup_cache (now : Int) (rules : List CompiledRule) (cache : Cache) : Cache :=
  let expired := (cache.filter (fun e => decide (ttlFor rules e.1.2 ≤ now - e.2))).map Prod.fst
  expired.foldl (fun c k => c.eraseP (fun e => e.1 == k)) cache

-- Basic dict lemmas.

theorem lookup_insert_self (c : Cache) (k : Key) (v : Int) :
    lookup (insert c k v) k = some v := by
  induction c with
  | nil => simp [insert, lookup]
  | cons e rest ih =>
    by_cases h : e.1 = k
    · simp [insert, h, lookup]
    · simp [insert, h, lookup, ih]

theorem lookup_insert_ne (c : Cache) (k k' : Key) (v : Int) (h : k' ≠ k) :
    lookup (insert c k v) k' = lookup c k' := by
  induction c with
  | nil =>
    simp only [insert, lookup]
    rw [if_neg (fun hh => h hh.symm)]
  | cons e rest ih =>
    by_cases he : e.1 = k
    · simp only [insert, if_pos he, lookup]
      rw [if_neg (fun hh => h hh.symm), if_neg (fun hh : e.1 = k' => h (hh ▸ he))]
    · simp only [insert, if_neg he, lookup]
      rw [ih]

-- Dict lemmas about eraseP-based removal, used for cleanup_cache.

theorem keys_nodup_eraseP (c : Cache) (k : Key) (nd : (c.map Prod.fst).Nodup) :
    ((c.eraseP (fun e => e.1 == k)).map Prod.fst).Nodup :=
  nd.sublist ((c.eraseP_sublist).map Prod.fst)

theorem mem_eraseP_key {c : Cache} {k : Key} {x : Key × Int}
    (nd : (c.map Prod.fst).Nodup) :
    x ∈ c.eraseP (fun e => e.1 == k) ↔ (x ∈ c ∧ x.1 ≠ k) := by
  induction c with
  | nil => simp
  | cons e rest ih =>
    have nd1 : e.1 ∉ rest.map Prod.fst ∧ (rest.map Prod.fst).Nodup := by
      rw [List.map_cons] at nd
      exact List.nodup_cons.mp nd
    rw [List.eraseP_cons]
    by_cases hek : e.1 = k
    · simp only [hek, beq_self_eq_true, cond_true]
      constructor
      · intro hx
        refine ⟨List.mem_cons_of_mem e hx, ?_⟩
        intro hxk
        have h1 : x.1 ∈ rest.map Prod.fst := List.mem_map_of_mem Prod.fst hx
        rw [hxk, ← hek] at h1
        exact nd1.1 h1
      · rintro ⟨hx, hne⟩
        rcases List.mem_cons.mp hx with hx | hx
        · subst hx
          exact absurd hek hne
        · exact hx
    · have hbeq : (e.1 == k) = false := beq_eq_false_iff_ne.mpr hek
      simp only [hbeq, cond_false, List.mem_cons, ih nd1.2]
      constructor
      · rintro (hx | ⟨hx, hne⟩)
        · subst hx
          exact ⟨Or.inl rfl, hek⟩
        · exact ⟨Or.inr hx, hne⟩
      · rintro ⟨hx | hx, hne⟩
        · exact Or.inl hx
        · exact Or.inr ⟨hx, hne⟩

theorem mem_foldl_eraseP (x : Key × Int) (ks : List Key) :
    ∀ (c : Cache), (c.map Prod.fst).Nodup →
      (x ∈ ks.foldl (fun c k => c.eraseP (fun e => e.1 == k)) c ↔
        (x ∈ c ∧ x.1 ∉ ks)) := by
  induction ks with
  | nil =>
    intro c _
    simp
  | cons k ks ih =>
    intro c nd
    rw [List.foldl_cons, ih _ (keys_nodup_eraseP c k nd), mem_eraseP_key nd,
      List.mem_cons]
    tauto

theorem key_inj : ∀ {c : Cache}, (c.map Prod.fst).Nodup →
    ∀ {x y : Key × Int}, x ∈ c → y ∈ c → x.1 = y.1 → x = y := by
  intro c
  induction c with
  | nil => simp
  | cons e rest ih =>
    intro nd x y hx hy hxy
    have nd1 : e.1 ∉ rest.map Prod.fst ∧ (rest.map Prod.fst).Nodup := by
      rw [List.map_cons] at nd
      exact List.nodup_cons.mp nd
    rcases List.mem_cons.mp hx with hx | hx <;> rcases List.mem_cons.mp hy with hy | hy
    · exact hx.trans hy.symm
    · have h1 : y.1 ∈ rest.map Prod.fst := List.mem_map_of_mem Prod.fst hy
      rw [← hxy, hx] at h1
      exact absurd h1 nd1.1
    · have h1 : x.1 ∈ rest.map Prod.fst := List.mem_map_of_mem Prod.fst hx
      rw [hxy, hy] at h1
      exact absurd h1 nd1.1
    · exact ih nd1.2 hx hy hxy

-- Sample data used by counterexamples and witnesses.

def cidDemo : String := "42"

def ruleAName : String := "A"

def ruleBName : String := "B"

/-- A rule whose configured rate_limit_seconds is 0, a value the rule
format allows (a non-negative integer). -/
def ruleZero : CompiledRule :=
  { name := ruleAName, pattern := fun _ => true, action := actRefresh,
    rate_limit_seconds := 0, level := lvlWarn }

/-- A rule with a 10 second window. -/
def ruleTen : CompiledRule :=
  { name := ruleAName, pattern := fun _ => true, action := actRefresh,
    rate_limit_seconds := 10, level := lvlWarn }

/-- C2 counterexample: the claim asserts that immediately after
markFired(c, r, t) the call canFire(c, r, t) returns false for every
rule; for a rule whose rate_limit_seconds is 0 the code returns true
(0 elapsed ≥ 0 window), so the claim fails as stated. -/
theorem c2_counterexample :
    can_fire cidDemo ruleZero 5 (mark_fired cidDemo ruleZero 5 []) = true := by
  decide

/-- C2 (amended): for every rule with a positive rate_limit_seconds,
canFire(c, r, t) is false immediately after markFired(c, r, t); for
every rule, after markFired(c, r, t) the call canFire(c, r, t1) is true
exactly when t1 ≥ t + rate_limit_seconds; and canFire is true whenever
no prior firing is recorded for the key (c, r.name). -/
theorem c2_rate_limiter (r : CompiledRule) (c : String) (t : Int) (m : Cache) :
    (0 < r.rate_limit_seconds →
      can_fire c r t (mark_fired c r t m) = false) ∧
    (∀ t1 : Int, can_fire c r t1 (mark_fired c r t m) = true ↔
      t + r.rate_limit_seconds ≤ t1) ∧
    (lookup m (c, r.name) = none → can_fire c r t m = true) := by
  refine ⟨?_, ?_, ?_⟩
  · intro h
    simp only [can_fire, mark_fired, lookup_insert_self, decide_eq_false_iff_not]
    omega
  · intro t1
    simp only [can_fire, mark_fired, lookup_insert_self, decide_eq_true_eq]
    omega
  · intro h
    simp only [can_fire, h]

/-- Witness for c2_rate_limiter at a concrete 10-second rule. -/
theorem c2_rate_limiter_witness :
    can_fire cidDemo ruleTen 5 (mark_fired cidDemo ruleTen 5 []) = false ∧
    (can_fire cidDemo ruleTen 15 (mark_fired cidDemo ruleTen 5 []) = true ↔
      (5 : Int) + ruleTen.rate_limit_seconds ≤ 15) ∧
    can_fire cidDemo ruleTen 5 [] = true :=
  ⟨(c2_rate_limiter ruleTen cidDemo 5 []).1 (by decide),
   (c2_rate_limiter ruleTen cidDemo 5 []).2.1 15,
   (c2_rate_limiter ruleTen cidDemo 5 []).2.2 rfl⟩

/-- A two-entry cache with distinct keys (a Python dict invariant). -/
def demoCache : Cache := [((cidDemo, ruleAName), 0), ((cidDemo, ruleBName), 0)]

/-- C3: an entry survives cleanup_cache iff it was present and the
elapsed time since its last_fired timestamp has not reached the window
of the first active rule bearing its rule name (ttlFor, defaulting to
300 when no active rule has that name); so cleanup removes an entry
exactly once its window elapses, and never adds or modifies entries. -/
theorem c3_cleanup_cache (now : Int) (rules : List CompiledRule) (cache : Cache)
    (nd : (cache.map Prod.fst).Nodup) (k : Key) (ts : Int) :
    (k, ts) ∈ cleanup_cache now rules cache ↔
      ((k, ts) ∈ cache ∧ now - ts < ttlFor rules k.2) := by
  simp only [cleanup_cache]
  rw [mem_foldl_eraseP _ _ _ nd]
  constructor
  · rintro ⟨hmem, hnotexp⟩
    refine ⟨hmem, ?_⟩
    by_contra hge
    push_neg at hge
    refine hnotexp (List.mem_map_of_mem Prod.fst (List.mem_filter.mpr ⟨hmem, ?_⟩))
    simpa using hge
  · rintro ⟨hmem, hlt⟩
    refine ⟨hmem, ?_⟩
    intro hk
    obtain ⟨y, hy, hyk⟩ := List.mem_map.mp hk
    have hyc : y ∈ cache := (List.mem_filter.mp hy).1
    have hyp : ttlFor rules y.1.2 ≤ now - y.2 := by
      have h2 := (List.mem_filter.mp hy).2
      simpa using h2
    have hxy : y = (k, ts) := key_inj nd hyc hmem (by rw [hyk])
    rw [hxy] at hyp
    have hyp2 : ttlFor rules k.2 ≤ now - ts := by simpa using hyp
    omega

/-- Witness for c3_cleanup_cache: at time 5 the 10-second entry for
rule A is kept; both sides of the equivalence evaluate on demoCache. -/
theorem c3_cleanup_cache_witness :
    (((cidDemo, ruleAName), (0 : Int)) ∈ cleanup_cache 5 [ruleTen] demoCache ↔
      (((cidDemo, ruleAName), (0 : Int)) ∈ demoCache ∧
        (5 : Int) - 0 < ttlFor [ruleTen] ruleAName)) :=
  c3_cleanup_cache 5 [ruleTen] demoCache (by decide) (cidDemo, ruleAName) 0

/-- One entry of the rules list of the configuration document, before
compilation: pattern_ok models whether re.compile(pattern) succeeds and
matcher the matcher of the compiled pattern when it does; action,
rate_limit_seconds and level carry none when the key is absent. -/
structure RawRule where
  name : String
  pattern : String
  pattern_ok : Bool
  matcher : String → Bool
  action : Option String
  rate_limit_seconds : Option Int
  level : Option String

/-- The per-rule compilation loop of load_rules (lines 97 to 109): a
rule whose pattern fails to compile is reported and skipped, the rest
continue; absent keys fall back to the in-code defaults. -/
def loadCompile : List RawRule → List CompiledRule × List LogEvent
  | [] => ([], [])
  | r :: rest =>
    let res := loadCompile rest
    if r.pattern_ok then
      ({ name := r.name, pattern := r.matcher,
         action := match r.action with | some a => a | none => actRefresh,
         rate_limit_seconds :=
           match r.rate_limit_seconds with | some v => v | none => 300,
         level := match r.level with | some v => v | none => lvlWarn } :: res.1,
       res.2)
    else
      (res.1, LogEvent.mk evRuleCompileError lvlError :: res.2)

/-- The global settings object of the configuration document (the code
reads the keys stop_on_first_action and rule_reload_seconds). -/
structure GlobalCfg where
  stop_on_first_action : Option Bool
  rule_reload_seconds : Option Int
deriving DecidableEq, Repr

/-- The default global settings returned on load failure and used when
the document lacks a global object (lines 89, 92 and 95). -/
def defaultGlobalCfg : GlobalCfg :=
  { stop_on_first_action := some true, rule_reload_seconds := some 60 }

/-- A parsed configuration document: the rules list and the optional
global settings object (JSON key global). -/
structure RulesConfig where
  rules : List RawRule
  globalCfg : Option GlobalCfg

/-- Outcome of opening and parsing rules.json: absent file, any other
read or parse failure, or a parsed document. -/
inductive ReadResult where
  | notFound
  | loadError (msg : String)
  | ok (cfg : RulesConfig)

/-- load_rules (line 83): absent or unparseable source yields the empty
rule list and the default globals with an error report; otherwise the
rules compile one by one and the globals default when absent. -/
def load_rules : ReadResult → List CompiledRule × GlobalCfg × List LogEvent
  | .notFound =>
    ([], defaultGlobalCfg, [LogEvent.mk evRulesNotFound lvlError])
  | .loadError _ =>
    ([], defaultGlobalCfg, [LogEvent.mk evRulesLoadError lvlError])
  | .ok cfg =>
    let res := loadCompile cfg.rules
    (res.1,
     match cfg.globalCfg with | some g => g | none => defaultGlobalCfg,
     res.2 ++ [LogEvent.mk evRulesLoaded lvlInfo])

/-- C5: the compiler output is exactly the sublist of rules whose
patterns compile successfully, in declaration order, each carrying the
documented defaults for absent fields (action refresh_metadata, window
300, level WARN); every failing rule contributes one error report and
aborts nothing else. -/
theorem c5_rule_compiler (rules : List RawRule) :
    (loadCompile rules).1 =
      (rules.filter (fun r => r.pattern_ok)).map (fun r =>
        { name := r.name, pattern := r.matcher,
          action := match r.action with | some a => a | none => actRefresh,
          rate_limit_seconds :=
            match r.rate_limit_seconds with | some v => v | none => 300,
          level := match r.level with | some v => v | none => lvlWarn }) ∧
    (loadCompile rules).2 =
      (rules.filter (fun r => !r.pattern_ok)).map
        (fun _ => LogEvent.mk evRuleCompileError lvlError) := by
  induction rules with
  | nil => exact ⟨rfl, rfl⟩
  | cons r rest ih =>
    rcases Bool.eq_false_or_eq_true r.pattern_ok with h | h
    · constructor
      · simp [loadCompile, List.filter_cons, h, ih.1]
      · simp [loadCompile, List.filter_cons, h, ih.2]
    · constructor
      · simp [loadCompile, List.filter_cons, h, ih.1]
      · simp [loadCompile, List.filter_cons, h, ih.2]

/-- C6: when the rule configuration source is absent or unparseable,
load_rules returns (it is total) the empty rule list and the default
global settings, whose values are stop_on_first_action true and a
60-second reload interval, and the failure is reported at level
ERROR. -/
theorem c6_load_rules_safe_defaults :
    load_rules .notFound =
      ([], defaultGlobalCfg, [LogEvent.mk evRulesNotFound lvlError]) ∧
    (∀ msg : String, load_rules (.loadError msg) =
      ([], defaultGlobalCfg, [LogEvent.mk evRulesLoadError lvlError])) ∧
    defaultGlobalCfg.stop_on_first_action = some true ∧
    defaultGlobalCfg.rule_reload_seconds = some 60 :=
  ⟨rfl, fun _ => rfl, rfl, rfl⟩

/-- Result of the outbound HTTP refresh call, as seen by
call_emby_refresh: a response code, an HTTPError carrying a code, or
any other exception (transport failure). -/
inductive HttpResult where
  | ok (code : Int)
  | httpError (code : Int)
  | transportFailure

/-- call_emby_refresh (line 112): returns the response code, the code
of an HTTPError, or 0 with an error report on transport failure. -/
def call_emby_refresh (res : HttpResult) (item_id : String) :
    Int × List LogEvent :=
  match res with
  | .ok code => (code, [])
  | .httpError code => (code, [])
  | .transportFailure => (0, [LogEvent.mk evApiTransportError lvlError])

/-- perform_action (line 127): dispatch on the action identifier; the
single supported action is refresh_metadata, anything else is reported
as an unknown action and yields 0 without any call. -/
def perform_action (res : HttpResult) (action : String) (item_id : String)
    (name : Option String) : Int × List LogEvent :=
  if action = actRefresh then call_emby_refresh res item_id
  else (0, [LogEvent.mk evUnknownAction lvlError])

/-- An action identifier outside the supported set. -/
def actUnknown : String := "unknown_action"

/-- C7: the dispatcher always returns an outcome: a response code (also
for HTTP error statuses) on the supported action, 0 with an error
report on transport failure, and for an unknown action identifier the
result does not depend on the transport (no external call), is 0 and
reports a configuration error. -/
theorem c7_dispatcher :
    (∀ (code : Int) (item_id : String) (nm : Option String),
      (perform_action (.ok code) actRefresh item_id nm).1 = code) ∧
    (∀ (code : Int) (item_id : String) (nm : Option String),
      (perform_action (.httpError code) actRefresh item_id nm).1 = code) ∧
    (∀ (item_id : String) (nm : Option String),
      (perform_action .transportFailure actRefresh item_id nm).1 = 0 ∧
      LogEvent.mk evApiTransportError lvlError ∈
        (perform_action .transportFailure actRefresh item_id nm).2) ∧
    (∀ (res res2 : HttpResult) (action : String) (item_id : String)
        (nm : Option String), action ≠ actRefresh →
      perform_action res action item_id nm =
        perform_action res2 action item_id nm) ∧
    (∀ (res : HttpResult) (action : String) (item_id : String)
        (nm : Option String), action ≠ actRefresh →
      (perform_action res action item_id nm).1 = 0 ∧
      LogEvent.mk evUnknownAction lvlError ∈
        (perform_action res action item_id nm).2) := by
  refine ⟨fun _ _ _ => rfl, fun _ _ _ => rfl,
    fun i nm => ⟨rfl, ?_⟩, ?_, ?_⟩
  · simp [perform_action, call_emby_refresh]
  · intro res res2 a i nm h
    simp [perform_action, h]
  · intro res a i nm h
    refine ⟨?_, ?_⟩ <;> simp [perform_action, h]

/-- Witness for c7_dispatcher at concrete outcomes and a concrete
unsupported action identifier. -/
theorem c7_dispatcher_witness :
    (perform_action (.ok 204) actRefresh cidDemo none).1 = 204 ∧
    (perform_action (.httpError 401) actRefresh cidDemo none).1 = 401 ∧
    (perform_action .transportFailure actRefresh cidDemo none).1 = 0 ∧
    perform_action (.ok 204) actUnknown cidDemo none =
      perform_action .transportFailure actUnknown cidDemo none ∧
    (perform_action (.ok 204) actUnknown cidDemo none).1 = 0 :=
  ⟨c7_dispatcher.1 204 cidDemo none,
   c7_dispatcher.2.1 401 cidDemo none,
   (c7_dispatcher.2.2.1 cidDemo none).1,
   c7_dispatcher.2.2.2.1 (.ok 204) .transportFailure actUnknown cidDemo none
     (by decide),
   (c7_dispatcher.2.2.2.2 (.ok 204) actUnknown cidDemo none (by decide)).1⟩

/-- A dispatched action, as recorded by the ActionCalled log line:
the rule, its action identifier, the correlation id and the outcome. -/
structure Fired where
  rule_name : String
  action : String
  item_id : String
  status : Int
deriving DecidableEq, Repr

/-- The per-session state of tail_file: the last extracted item_id and
name, the rate-limit cache, and the observable history (service-log
events and dispatched actions). -/
structure SessState where
  item_id : Option String
  name : Option String
  cache : Cache
  events : List LogEvent
  actions : List Fired
deriving DecidableEq, Repr

/-- The environment of a session: the two fixed extraction patterns
(ITEMID_RE and NAME_RE as searches returning the captured group) and
the HTTP transport (result of the refresh call for an item id). -/
structure Ctx where
  extractId : String → Option String
  extractName : String → Option String
  transport : String → HttpResult

/-- Append one record to the service log. -/
def pushEv (st : SessState) (e : LogEvent) : SessState :=
  { st with events := st.events ++ [e] }

/-- The body of the for-rule loop of tail_file (lines 182 to 213) for
one rule: on a pattern match, log it; without a correlation id, log the
skip and continue (second component false); otherwise fire or log the
rate-limit skip, then return iff stop_on_first_action is set. -/
def ruleStep (ctx : Ctx) (now : Int) (line : String) (stopFlag : Bool)
    (st : SessState) (rule : CompiledRule) : SessState × Bool :=
  if rule.pattern line then
    let st1 := pushEv st (LogEvent.mk evRuleMatched lvlInfo)
    match st1.item_id with
    | none => (pushEv st1 (LogEvent.mk evSkipNoItemId lvlWarn), false)
    | some iid =>
      if can_fire iid rule now st1.cache then
        let pr := perform_action (ctx.transport iid) rule.action iid st1.name
        ({ st1 with
            cache := mark_fired iid rule now st1.cache,
            events := st1.events ++ pr.2 ++ [LogEvent.mk evActionCalled lvlInfo],
            actions := st1.actions ++ [Fired.mk rule.name rule.action iid pr.1] },
         stopFlag)
      else
        (pushEv st1 (LogEvent.mk evSkipTTL lvlInfo), stopFlag)
  else (st, false)

/-- The for-rule loop over the compiled rules, in declaration order; a
true second component models the return statement of tail_file. -/
def rulesLoop (ctx : Ctx) (now : Int) (line : String) (stopFlag : Bool) :
    SessState → List CompiledRule → SessState × Bool
  | st, [] => (st, false)
  | st, rule :: rest =>
    let res := ruleStep ctx now line stopFlag st rule
    if res.2 then res else rulesLoop ctx now line stopFlag res.1 rest

/-- The opportunistic extraction step run on every line before
matching (lines 174 to 180): the most recent successful extraction
wins. -/
def applyExtract (ctx : Ctx) (st : SessState) (line : String) : SessState :=
  let st1 := match ctx.extractId line with
    | some i => { st with item_id := some i }
    | none => st
  match ctx.extractName line with
  | some n => { st1 with name := some n }
  | none => st1

/-- Processing of one read line: extraction, then the rule loop. -/
def processLine (ctx : Ctx) (rules : List CompiledRule) (stopFlag : Bool)
    (now : Int) (st : SessState) (line : String) : SessState × Bool :=
  rulesLoop ctx now line stopFlag (applyExtract ctx st line) rules

/-- One iteration of the read loop of tail_file: the clock reading
taken at its start and the result of readline (none when no line is
available, upon which the code sleeps and retries). -/
structure IterInput where
  now : Int
  line : Option String
deriving DecidableEq, Repr

/-- Why the read loop returned. -/
inductive StopReason where
  | timeout
  | stopOnFirstAction
  | traceEnded
deriving DecidableEq, Repr

/-- The while-true read loop of tail_file (lines 160 to 213) over a
finite trace of iterations: every iteration prunes the cache, then
checks the deadline before attempting to read, and a processed line may
end the session through stop_on_first_action. -/
def tailLoop (ctx : Ctx) (rules : List CompiledRule) (stopFlag : Bool)
    (start timeout : Int) : SessState → List IterInput → SessState × StopReason
  | st, [] => (st, .traceEnded)
  | st, it :: rest =>
    let st1 := { st with cache := cleanup_cache it.now rules st.cache }
    if timeout ≤ it.now - start then
      (pushEv st1 (LogEvent.mk evWatchTimeout lvlInfo), .timeout)
    else
      match it.line with
      | none => tailLoop ctx rules stopFlag start timeout st1 rest
      | some line =>
        let res := processLine ctx rules stopFlag it.now st1 line
        if res.2 then (res.1, .stopOnFirstAction)
        else tailLoop ctx rules stopFlag start timeout res.1 rest

-- Branch reduction lemmas for ruleStep.

theorem ruleStep_no_match (ctx : Ctx) (now : Int) (line : String)
    (stopFlag : Bool) (st : SessState) (rule : CompiledRule)
    (hm : rule.pattern line = false) :
    ruleStep ctx now line stopFlag st rule = (st, false) := by
  simp [ruleStep, hm]

theorem ruleStep_no_id (ctx : Ctx) (now : Int) (line : String)
    (stopFlag : Bool) (st : SessState) (rule : CompiledRule)
    (hm : rule.pattern line = true) (hid : st.item_id = none) :
    ruleStep ctx now line stopFlag st rule =
      (pushEv (pushEv st (LogEvent.mk evRuleMatched lvlInfo))
        (LogEvent.mk evSkipNoItemId lvlWarn), false) := by
  simp [ruleStep, pushEv, hm, hid]

theorem ruleStep_fire (ctx : Ctx) (now : Int) (line : String)
    (stopFlag : Bool) (st : SessState) (rule : CompiledRule) (iid : String)
    (hm : rule.pattern line = true) (hid : st.item_id = some iid)
    (hcf : can_fire iid rule now st.cache = true) :
    ruleStep ctx now line stopFlag st rule =
      ({ item_id := st.item_id, name := st.name,
         cache := mark_fired iid rule now st.cache,
         events := st.events ++ [LogEvent.mk evRuleMatched lvlInfo] ++
           (perform_action (ctx.transport iid) rule.action iid st.name).2 ++
           [LogEvent.mk evActionCalled lvlInfo],
         actions := st.actions ++
           [Fired.mk rule.name rule.action iid
             (perform_action (ctx.transport iid) rule.action iid st.name).1] },
       stopFlag) := by
  simp [ruleStep, pushEv, hm, hid, hcf, List.append_assoc]

theorem ruleStep_ttl (ctx : Ctx) (now : Int) (line : String)
    (stopFlag : Bool) (st : SessState) (rule : CompiledRule) (iid : String)
    (hm : rule.pattern line = true) (hid : st.item_id = some iid)
    (hcf : can_fire iid rule now st.cache = false) :
    ruleStep ctx now line stopFlag st rule =
      (pushEv (pushEv st (LogEvent.mk evRuleMatched lvlInfo))
        (LogEvent.mk evSkipTTL lvlInfo), stopFlag) := by
  simp [ruleStep, pushEv, hm, hid, hcf]

/-- Leading rules none of which matches the line leave the rule loop
untouched. -/
theorem rulesLoop_skip (ctx : Ctx) (now : Int) (line : String)
    (stopFlag : Bool) (pre rs : List CompiledRule) (st : SessState)
    (h : ∀ p ∈ pre, p.pattern line = false) :
    rulesLoop ctx now line stopFlag st (pre ++ rs) =
      rulesLoop ctx now line stopFlag st rs := by
  induction pre with
  | nil => rfl
  | cons p pre ih =>
    have hp : p.pattern line = false := h p (List.mem_cons_self p pre)
    rw [List.cons_append]
    have e1 : rulesLoop ctx now line stopFlag st (p :: (pre ++ rs)) =
        rulesLoop ctx now line stopFlag st (pre ++ rs) := by
      simp [rulesLoop, ruleStep_no_match ctx now line stopFlag st p hp]
    rw [e1]
    exact ih (fun q hq => h q (List.mem_cons_of_mem p hq))

/-- One ruleStep either leaves the cache unchanged or records exactly
one firing at time now, and can only append to the action history. -/
theorem ruleStep_cache_actions (ctx : Ctx) (now : Int) (line : String)
    (stopFlag : Bool) (st : SessState) (rule : CompiledRule) :
    ((ruleStep ctx now line stopFlag st rule).1.cache = st.cache ∨
      ∃ iid, (ruleStep ctx now line stopFlag st rule).1.cache =
        mark_fired iid rule now st.cache) ∧
    (∃ ex, (ruleStep ctx now line stopFlag st rule).1.actions =
      st.actions ++ ex) := by
  rcases Bool.eq_false_or_eq_true (rule.pattern line) with hm | hm
  · cases hid : st.item_id with
    | none =>
      rw [ruleStep_no_id ctx now line stopFlag st rule hm hid]
      exact ⟨Or.inl rfl, [], by simp [pushEv]⟩
    | some iid =>
      rcases Bool.eq_false_or_eq_true (can_fire iid rule now st.cache) with hcf | hcf
      · rw [ruleStep_fire ctx now line stopFlag st rule iid hm hid hcf]
        exact ⟨Or.inr ⟨iid, rfl⟩,
          [Fired.mk rule.name rule.action iid
            (perform_action (ctx.transport iid) rule.action iid st.name).1], rfl⟩
      · rw [ruleStep_ttl ctx now line stopFlag st rule iid hm hid hcf]
        exact ⟨Or.inl rfl, [], by simp [pushEv]⟩
  · rw [ruleStep_no_match ctx now line stopFlag st rule hm]
    exact ⟨Or.inl rfl, [], (List.append_nil _).symm⟩

/-- Across the rule loop, the recorded timestamp of any cache key is
either what it was before or the current iteration time now. -/
theorem rulesLoop_lookup_now (ctx : Ctx) (now : Int) (line : String)
    (stopFlag : Bool) :
    ∀ (rules : List CompiledRule) (st : SessState) (k : Key),
      lookup (rulesLoop ctx now line stopFlag st rules).1.cache k =
          lookup st.cache k ∨
      lookup (rulesLoop ctx now line stopFlag st rules).1.cache k =
          some now := by
  intro rules
  induction rules with
  | nil => exact fun st k => Or.inl rfl
  | cons rule rest ih =>
    intro st k
    have hlk : lookup (ruleStep ctx now line stopFlag st rule).1.cache k =
          lookup st.cache k ∨
        lookup (ruleStep ctx now line stopFlag st rule).1.cache k = some now := by
      rcases (ruleStep_cache_actions ctx now line stopFlag st rule).1 with h | ⟨iid, h⟩
      · exact Or.inl (by rw [h])
      · rw [h, mark_fired]
        by_cases hk : k = (iid, rule.name)
        · exact Or.inr (by rw [hk, lookup_insert_self])
        · exact Or.inl (lookup_insert_ne st.cache (iid, rule.name) k now hk)
    rcases Bool.eq_false_or_eq_true (ruleStep ctx now line stopFlag st rule).2
      with hret | hret
    · have e1 : rulesLoop ctx now line stopFlag st (rule :: rest) =
          ruleStep ctx now line stopFlag st rule := by
        simp [rulesLoop, hret]
      rw [e1]
      exact hlk
    · have e1 : rulesLoop ctx now line stopFlag st (rule :: rest) =
          rulesLoop ctx now line stopFlag
            (ruleStep ctx now line stopFlag st rule).1 rest := by
        simp [rulesLoop, hret]
      rw [e1]
      rcases ih (ruleStep ctx now line stopFlag st rule).1 k with h2 | h2
      · rcases hlk with h1 | h1
        · exact Or.inl (by rw [h2, h1])
        · exact Or.inr (by rw [h2, h1])
      · exact Or.inr h2

/-- The rule loop only appends to the action history. -/
theorem rulesLoop_actions_mono (ctx : Ctx) (now : Int) (line : String)
    (stopFlag : Bool) :
    ∀ (rules : List CompiledRule) (st : SessState),
      ∃ ex, (rulesLoop ctx now line stopFlag st rules).1.actions =
        st.actions ++ ex := by
  intro rules
  induction rules with
  | nil => exact fun st => ⟨[], (List.append_nil _).symm⟩
  | cons rule rest ih =>
    intro st
    obtain ⟨ex1, hex1⟩ := (ruleStep_cache_actions ctx now line stopFlag st rule).2
    rcases Bool.eq_false_or_eq_true (ruleStep ctx now line stopFlag st rule).2
      with hret | hret
    · have e1 : rulesLoop ctx now line stopFlag st (rule :: rest) =
          ruleStep ctx now line stopFlag st rule := by
        simp [rulesLoop, hret]
      exact ⟨ex1, by rw [e1, hex1]⟩
    · have e1 : rulesLoop ctx now line stopFlag st (rule :: rest) =
          rulesLoop ctx now line stopFlag
            (ruleStep ctx now line stopFlag st rule).1 rest := by
        simp [rulesLoop, hret]
      obtain ⟨ex2, hex2⟩ := ih (ruleStep ctx now line stopFlag st rule).1
      exact ⟨ex1 ++ ex2, by rw [e1, hex2, hex1, List.append_assoc]⟩

/-- While no correlation id is known, the rule loop dispatches nothing,
leaves the cache untouched, never returns early, and logs a
skipped-no-correlation record for every matching rule. -/
theorem rulesLoop_no_id (ctx : Ctx) (now : Int) (line : String)
    (stopFlag : Bool) :
    ∀ (rules : List CompiledRule) (st : SessState), st.item_id = none →
      (rulesLoop ctx now line stopFlag st rules).1.actions = st.actions ∧
      (rulesLoop ctx now line stopFlag st rules).1.cache = st.cache ∧
      (rulesLoop ctx now line stopFlag st rules).2 = false ∧
      (∀ e ∈ st.events, e ∈ (rulesLoop ctx now line stopFlag st rules).1.events) ∧
      (∀ r ∈ rules, r.pattern line = true →
        LogEvent.mk evSkipNoItemId lvlWarn ∈
          (rulesLoop ctx now line stopFlag st rules).1.events) := by
  intro rules
  induction rules with
  | nil =>
    intro st h
    exact ⟨rfl, rfl, rfl, fun e he => he, fun r hr => absurd hr (List.not_mem_nil r)⟩
  | cons rule rest ih =>
    intro st h
    rcases Bool.eq_false_or_eq_true (rule.pattern line) with hm | hm
    · have e1 : rulesLoop ctx now line stopFlag st (rule :: rest) =
          rulesLoop ctx now line stopFlag
            (pushEv (pushEv st (LogEvent.mk evRuleMatched lvlInfo))
              (LogEvent.mk evSkipNoItemId lvlWarn)) rest := by
        simp [rulesLoop, ruleStep_no_id ctx now line stopFlag st rule hm h]
      have h2 : (pushEv (pushEv st (LogEvent.mk evRuleMatched lvlInfo))
          (LogEvent.mk evSkipNoItemId lvlWarn)).item_id = none := by
        simp [pushEv, h]
      obtain ⟨ha, hc, hrret, hev, hsk⟩ := ih _ h2
      rw [e1]
      refine ⟨?_, ?_, hrret, ?_, ?_⟩
      · rw [ha]
        simp [pushEv]
      · rw [hc]
        simp [pushEv]
      · intro e he
        exact hev e (List.mem_append_left _ (List.mem_append_left _ he))
      · intro r hr hrm
        rcases List.mem_cons.mp hr with hreq | hr2
        · exact hev _ (List.mem_append_right _ (List.mem_cons_self _ _))
        · exact hsk r hr2 hrm
    · have e1 : rulesLoop ctx now line stopFlag st (rule :: rest) =
          rulesLoop ctx now line stopFlag st rest := by
        simp [rulesLoop, ruleStep_no_match ctx now line stopFlag st rule hm]
      obtain ⟨ha, hc, hrret, hev, hsk⟩ := ih st h
      rw [e1]
      refine ⟨ha, hc, hrret, hev, ?_⟩
      intro r hr hrm
      rcases List.mem_cons.mp hr with hreq | hr2
      · subst hreq
        rw [hm] at hrm
        exact absurd hrm Bool.false_ne_true
      · exact hsk r hr2 hrm

-- Sample session data used by witnesses and counterexamples.

/-- A context in which neither extraction pattern ever matches and the
refresh call succeeds with 204. -/
def ctxNone : Ctx :=
  { extractId := fun _ => none, extractName := fun _ => none,
    transport := fun _ => .ok 204 }

/-- A context whose refresh call fails at the transport level. -/
def ctxFail : Ctx :=
  { extractId := fun _ => none, extractName := fun _ => none,
    transport := fun _ => .transportFailure }

def lineDemo : String := "ERROR occurred"

def stEmpty : SessState :=
  { item_id := none, name := none, cache := [], events := [], actions := [] }

/-- A session that already extracted a correlation id, empty cache. -/
def stReady : SessState :=
  { item_id := some cidDemo, name := none, cache := [], events := [],
    actions := [] }

/-- A session that already extracted a correlation id and whose cache
records a firing of rule A at time 100. -/
def stRecent : SessState :=
  { item_id := some cidDemo, name := none,
    cache := [((cidDemo, ruleAName), 100)], events := [], actions := [] }

/-- A second 10-second rule, named B. -/
def ruleBTen : CompiledRule :=
  { name := ruleBName, pattern := fun _ => true, action := actRefresh,
    rate_limit_seconds := 10, level := lvlWarn }

/-- C4: a line matching a rule while no correlation id is known (the
line itself, scanned first, yields none and none was retained) produces
no action, leaves the rate-limit table unchanged, logs a
skipped-no-correlation record, and does not end the session. -/
theorem c4_skip_without_correlation (ctx : Ctx) (rules : List CompiledRule)
    (stopFlag : Bool) (now : Int) (st : SessState) (line : String)
    (r : CompiledRule) (hid : st.item_id = none)
    (hex : ctx.extractId line = none) (hr : r ∈ rules)
    (hm : r.pattern line = true) :
    (processLine ctx rules stopFlag now st line).1.actions = st.actions ∧
    (processLine ctx rules stopFlag now st line).1.cache = st.cache ∧
    (processLine ctx rules stopFlag now st line).2 = false ∧
    LogEvent.mk evSkipNoItemId lvlWarn ∈
      (processLine ctx rules stopFlag now st line).1.events := by
  have hae : (applyExtract ctx st line).item_id = none := by
    simp only [applyExtract, hex]
    cases hn : ctx.extractName line <;> simp [hid]
  have haPres : (applyExtract ctx st line).cache = st.cache ∧
      (applyExtract ctx st line).actions = st.actions := by
    simp only [applyExtract, hex]
    cases hn : ctx.extractName line <;> simp
  obtain ⟨ha, hc, hret, _, hsk⟩ :=
    rulesLoop_no_id ctx now line stopFlag rules (applyExtract ctx st line) hae
  unfold processLine
  exact ⟨by rw [ha, haPres.2], by rw [hc, haPres.1], hret, hsk r hr hm⟩

/-- Witness for c4_skip_without_correlation on a concrete session. -/
theorem c4_skip_without_correlation_witness :
    (processLine ctxNone [ruleTen] true 0 stEmpty lineDemo).1.actions =
      stEmpty.actions ∧
    (processLine ctxNone [ruleTen] true 0 stEmpty lineDemo).1.cache =
      stEmpty.cache ∧
    (processLine ctxNone [ruleTen] true 0 stEmpty lineDemo).2 = false ∧
    LogEvent.mk evSkipNoItemId lvlWarn ∈
      (processLine ctxNone [ruleTen] true 0 stEmpty lineDemo).1.events :=
  c4_skip_without_correlation ctxNone [ruleTen] true 0 stEmpty lineDemo
    ruleTen rfl rfl (List.mem_singleton.mpr rfl) rfl

/-- C9: with stop_on_first_action true, the first matching rule on a
line with a known correlation id ends the session whether or not the
rate limiter permits the firing, and a rate-limited match dispatches
nothing. -/
theorem c9_rate_limited_match_still_stops (ctx : Ctx)
    (pre post : List CompiledRule) (r : CompiledRule) (line : String)
    (st : SessState) (iid : String) (now : Int)
    (hpre : ∀ p ∈ pre, p.pattern line = false) (hm : r.pattern line = true)
    (hid : (applyExtract ctx st line).item_id = some iid) :
    (processLine ctx (pre ++ r :: post) true now st line).2 = true ∧
    (can_fire iid r now (applyExtract ctx st line).cache = false →
      (processLine ctx (pre ++ r :: post) true now st line).1.actions =
        (applyExtract ctx st line).actions) := by
  unfold processLine
  rw [rulesLoop_skip ctx now line true pre (r :: post) _ hpre]
  rcases Bool.eq_false_or_eq_true
      (can_fire iid r now (applyExtract ctx st line).cache) with hcf | hcf
  · have e1 : rulesLoop ctx now line true (applyExtract ctx st line) (r :: post) =
        ruleStep ctx now line true (applyExtract ctx st line) r := by
      simp [rulesLoop, ruleStep_fire ctx now line true _ r iid hm hid hcf]
    rw [e1, ruleStep_fire ctx now line true _ r iid hm hid hcf]
    exact ⟨rfl, fun hS => absurd (hS.symm.trans hcf) Bool.false_ne_true⟩
  · have e1 : rulesLoop ctx now line true (applyExtract ctx st line) (r :: post) =
        ruleStep ctx now line true (applyExtract ctx st line) r := by
      simp [rulesLoop, ruleStep_ttl ctx now line true _ r iid hm hid hcf]
    rw [e1, ruleStep_ttl ctx now line true _ r iid hm hid hcf]
    exact ⟨rfl, fun _ => by simp [pushEv]⟩

/-- Witness for c9_rate_limited_match_still_stops: rule A matched 1
second after its last firing (10-second window): session stops, no
action. -/
theorem c9_rate_limited_match_still_stops_witness :
    (processLine ctxNone [ruleTen] true 101 stRecent lineDemo).2 = true ∧
    (processLine ctxNone [ruleTen] true 101 stRecent lineDemo).1.actions =
      (applyExtract ctxNone stRecent lineDemo).actions := by
  have h := c9_rate_limited_match_still_stops ctxNone [] [] ruleTen lineDemo
    stRecent cidDemo 101 (fun p hp => absurd hp (List.not_mem_nil p)) rfl rfl
  exact ⟨h.1, h.2 (by decide)⟩

/-- C1 counterexample: stop_on_first_action is true, the line matches
the two distinct rules A and B, the correlation id is known, the rate
limiter denies A (fired 1 second ago, 10-second window) but permits B;
the claim then asserts exactly one firing (B), while the code fires
nothing and stops the session at the denied rule A. -/
theorem c1_counterexample :
    ruleTen.pattern lineDemo = true ∧
    ruleBTen.pattern lineDemo = true ∧
    (applyExtract ctxNone stRecent lineDemo).item_id = some cidDemo ∧
    can_fire cidDemo ruleBTen 101 (applyExtract ctxNone stRecent lineDemo).cache
      = true ∧
    (processLine ctxNone [ruleTen, ruleBTen] true 101 stRecent lineDemo).1.actions
      = [] ∧
    (processLine ctxNone [ruleTen, ruleBTen] true 101 stRecent lineDemo).2
      = true :=
  ⟨rfl, rfl, rfl, by decide, by decide, by decide⟩

/-- C1 (amended): with stop_on_first_action true, the session handles
only the first matching rule in declaration order on a line with a
known correlation id: when the rate limiter permits that rule, exactly
one action is dispatched, namely the action of that rule, and the
session stops immediately after the firing. -/
theorem c1_first_match_fires_once (ctx : Ctx) (pre post : List CompiledRule)
    (r : CompiledRule) (line : String) (st : SessState) (iid : String)
    (now : Int)
    (hpre : ∀ p ∈ pre, p.pattern line = false) (hm : r.pattern line = true)
    (hid : (applyExtract ctx st line).item_id = some iid)
    (hcf : can_fire iid r now (applyExtract ctx st line).cache = true) :
    (processLine ctx (pre ++ r :: post) true now st line).1.actions =
      (applyExtract ctx st line).actions ++
        [Fired.mk r.name r.action iid
          (perform_action (ctx.transport iid) r.action iid
            (applyExtract ctx st line).name).1] ∧
    (processLine ctx (pre ++ r :: post) true now st line).2 = true := by
  unfold processLine
  rw [rulesLoop_skip ctx now line true pre (r :: post) _ hpre]
  have e1 : rulesLoop ctx now line true (applyExtract ctx st line) (r :: post) =
      ruleStep ctx now line true (applyExtract ctx st line) r := by
    simp [rulesLoop, ruleStep_fire ctx now line true _ r iid hm hid hcf]
  rw [e1, ruleStep_fire ctx now line true _ r iid hm hid hcf]
  exact ⟨rfl, rfl⟩

/-- Witness for c1_first_match_fires_once on a concrete permitted
firing. -/
theorem c1_first_match_fires_once_witness :
    (processLine ctxNone [ruleTen] true 0 stReady lineDemo).1.actions =
      (applyExtract ctxNone stReady lineDemo).actions ++
        [Fired.mk ruleTen.name ruleTen.action cidDemo
          (perform_action (ctxNone.transport cidDemo) ruleTen.action cidDemo
            (applyExtract ctxNone stReady lineDemo).name).1] ∧
    (processLine ctxNone [ruleTen] true 0 stReady lineDemo).2 = true :=
  c1_first_match_fires_once ctxNone [] [] ruleTen lineDemo stReady cidDemo 0
    (fun p hp => absurd hp (List.not_mem_nil p)) rfl rfl rfl

/-- C10: whenever the session dispatches an action for a permitted
(correlation id, rule) pair at time now, the rate-limit entry for the
pair is set to now with the dispatched action recorded, for every
transport behaviour and every action identifier, known or not (the
firing is marked before the outcome is inspected). -/
theorem c10_window_starts_regardless_of_outcome (ctx : Ctx)
    (pre post : List CompiledRule) (r : CompiledRule) (line : String)
    (st : SessState) (iid : String) (now : Int) (stopFlag : Bool)
    (hpre : ∀ p ∈ pre, p.pattern line = false) (hm : r.pattern line = true)
    (hid : (applyExtract ctx st line).item_id = some iid)
    (hcf : can_fire iid r now (applyExtract ctx st line).cache = true) :
    lookup (processLine ctx (pre ++ r :: post) stopFlag now st line).1.cache
      (iid, r.name) = some now ∧
    Fired.mk r.name r.action iid
        (perform_action (ctx.transport iid) r.action iid
          (applyExtract ctx st line).name).1 ∈
      (processLine ctx (pre ++ r :: post) stopFlag now st line).1.actions := by
  unfold processLine
  rw [rulesLoop_skip ctx now line stopFlag pre (r :: post) _ hpre]
  rcases Bool.eq_false_or_eq_true stopFlag with hsf | hsf <;> subst hsf
  · have hstep := ruleStep_fire ctx now line true (applyExtract ctx st line)
      r iid hm hid hcf
    have hret : (ruleStep ctx now line true (applyExtract ctx st line) r).2 =
        true := by rw [hstep]
    have e1 : rulesLoop ctx now line true (applyExtract ctx st line)
        (r :: post) =
        ruleStep ctx now line true (applyExtract ctx st line) r := by
      simp [rulesLoop, hret]
    rw [e1, hstep]
    constructor
    · exact lookup_insert_self (applyExtract ctx st line).cache (iid, r.name) now
    · exact List.mem_append_right _ (List.mem_cons_self _ _)
  · have hstep := ruleStep_fire ctx now line false (applyExtract ctx st line)
      r iid hm hid hcf
    have hret : (ruleStep ctx now line false (applyExtract ctx st line) r).2 =
        false := by rw [hstep]
    have e1 : rulesLoop ctx now line false (applyExtract ctx st line)
        (r :: post) =
        rulesLoop ctx now line false
          (ruleStep ctx now line false (applyExtract ctx st line) r).1
          post := by
      simp [rulesLoop, hret]
    rw [e1]
    constructor
    · rcases rulesLoop_lookup_now ctx now line false post
          (ruleStep ctx now line false (applyExtract ctx st line) r).1
          (iid, r.name) with h2 | h2
      · rw [h2, hstep]
        exact lookup_insert_self (applyExtract ctx st line).cache (iid, r.name) now
      · exact h2
    · obtain ⟨ex2, hex2⟩ := rulesLoop_actions_mono ctx now line false post
        (ruleStep ctx now line false (applyExtract ctx st line) r).1
      rw [hex2, hstep]
      exact List.mem_append_left _
        (List.mem_append_right _ (List.mem_cons_self _ _))

/-- Witness for c10_window_starts_regardless_of_outcome: the transport
fails (outcome 0), yet the firing is recorded at time 0. -/
theorem c10_window_starts_regardless_of_outcome_witness :
    lookup (processLine ctxFail [ruleTen] true 0 stReady lineDemo).1.cache
      (cidDemo, ruleTen.name) = some 0 ∧
    Fired.mk ruleTen.name ruleTen.action cidDemo
        (perform_action (ctxFail.transport cidDemo) ruleTen.action cidDemo
          (applyExtract ctxFail stReady lineDemo).name).1 ∈
      (processLine ctxFail [ruleTen] true 0 stReady lineDemo).1.actions :=
  c10_window_starts_regardless_of_outcome ctxFail [] [] ruleTen lineDemo
    stReady cidDemo 0 true (fun p hp => absurd hp (List.not_mem_nil p))
    rfl rfl rfl

/-- C8: the read loop checks the elapsed time against the watch
duration on every iteration before attempting a read, so a trace
containing a deadline-reaching iteration never runs off the end; and an
iteration at the deadline, line available or not, ends the session as a
timeout logged at level INFO. -/
theorem c8_deadline_stops_session (ctx : Ctx) (rules : List CompiledRule)
    (stopFlag : Bool) (start timeout : Int) (st : SessState)
    (trace : List IterInput) :
    ((∃ it ∈ trace, timeout ≤ it.now - start) →
      (tailLoop ctx rules stopFlag start timeout st trace).2 ≠ .traceEnded) ∧
    (∀ (it : IterInput) (rest : List IterInput), timeout ≤ it.now - start →
      tailLoop ctx rules stopFlag start timeout st (it :: rest) =
        (pushEv { st with cache := cleanup_cache it.now rules st.cache }
          (LogEvent.mk evWatchTimeout lvlInfo), .timeout)) := by
  constructor
  · induction trace generalizing st with
    | nil =>
      intro h
      obtain ⟨it, hit, _⟩ := h
      exact absurd hit (List.not_mem_nil it)
    | cons it rest ih =>
      intro h
      by_cases ht : timeout ≤ it.now - start
      · have e1 : tailLoop ctx rules stopFlag start timeout st (it :: rest) =
            (pushEv { st with cache := cleanup_cache it.now rules st.cache }
              (LogEvent.mk evWatchTimeout lvlInfo), .timeout) := by
          simp [tailLoop, ht]
        rw [e1]
        intro hco
        exact StopReason.noConfusion hco
      · have hwit : ∃ w ∈ rest, timeout ≤ w.now - start := by
          obtain ⟨w, hw, hwt⟩ := h
          rcases List.mem_cons.mp hw with hweq | hw2
          · subst hweq
            exact absurd hwt ht
          · exact ⟨w, hw2, hwt⟩
        cases hl : it.line with
        | none =>
          have e1 : tailLoop ctx rules stopFlag start timeout st (it :: rest) =
              tailLoop ctx rules stopFlag start timeout
                { st with cache := cleanup_cache it.now rules st.cache }
                rest := by
            simp [tailLoop, ht, hl]
          rw [e1]
          exact ih _ hwit
        | some line =>
          rcases Bool.eq_false_or_eq_true
              (processLine ctx rules stopFlag it.now
                { st with cache := cleanup_cache it.now rules st.cache }
                line).2 with hp | hp
          · have e1 : tailLoop ctx rules stopFlag start timeout st (it :: rest) =
                ((processLine ctx rules stopFlag it.now
                  { st with cache := cleanup_cache it.now rules st.cache }
                  line).1, .stopOnFirstAction) := by
              simp [tailLoop, ht, hl, hp]
            rw [e1]
            intro hco
            exact StopReason.noConfusion hco
          · have e1 : tailLoop ctx rules stopFlag start timeout st (it :: rest) =
                tailLoop ctx rules stopFlag start timeout
                  (processLine ctx rules stopFlag it.now
                    { st with cache := cleanup_cache it.now rules st.cache }
                    line).1 rest := by
              simp [tailLoop, ht, hl, hp]
            rw [e1]
            exact ih _ hwit
  · intro it rest ht
    simp [tailLoop, ht]

/-- Witness for c8_deadline_stops_session: a single no-line iteration
at time 10 with a 5-second watch ends the session as a timeout. -/
theorem c8_deadline_stops_session_witness :
    (tailLoop ctxNone [] true 0 5 stEmpty [IterInput.mk 10 none]).2 ≠
      StopReason.traceEnded ∧
    tailLoop ctxNone [] true 0 5 stEmpty [IterInput.mk 10 none] =
      (pushEv { stEmpty with cache := cleanup_cache 10 [] stEmpty.cache }
        (LogEvent.mk evWatchTimeout lvlInfo), .timeout) :=
  ⟨(c8_deadline_stops_session ctxNone [] true 0 5 stEmpty
      [IterInput.mk 10 none]).1
      ⟨IterInput.mk 10 none, List.mem_singleton.mpr rfl, by decide⟩,
   (c8_deadline_stops_session ctxNone [] true 0 5 stEmpty
      [IterInput.mk 10 none]).2 (IterInput.mk 10 none) [] (by decide)⟩

end EmbyWatchdog
